import Mathlib

/-!
Verification development for the lawyer-bot-rag retrieval pipeline.

The Python sources are shallowly embedded:
* `src/ingestion/chunker.py`  — `LegalChunker.chunk_document` and helpers;
* `src/ingestion/run_ingestion.py` — `embed_with_cache` and the embedding cache;
* `src/ingestion/embedder.py` — `LegalEmbedder._embed_batch_openai`;
* `src/rag/vakilbot.py` — `VakilBot._detect_intent`, `_rewrite_query`,
  `_build_context`, `answer`, `_generate_response`.

External collaborators (the tiktoken tokenizer, the sentence-splitting
regular expression, the OpenAI client, Elasticsearch) are modelled as
function parameters; everything else follows the Python line by line.
-/

namespace VakilRag

/-- `LegalDocument` from `src/ingestion/parser.py` (the fields the chunker
reads; `page_number` is never read by the chunker and is omitted). -/
structure LegalDocument where
  content : String
  source_file : String
  act_name : String
  act_year : Option Int := none
  chapter : Option String := none
  section_number : Option String := none
  section_title : Option String := none
  doc_type : String := "statute"
  tags : List String := []
deriving DecidableEq, Repr

/-- `Chunk` from `src/ingestion/chunker.py`.  `total_chunks` is `Int`
because the Python code stores the provisional value `-1` before the
backfill pass. -/
structure Chunk where
  chunk_id : String
  content : String
  chunk_index : Nat
  total_chunks : Int
  act_name : String
  act_year : Option Int
  chapter : Option String
  section_number : Option String
  section_title : Option String
  doc_type : String
  tags : List String
  source_file : String
deriving DecidableEq, Repr

/-- Python `f"{x}"` on an `Optional[str]`: `None` prints as `"None"`. -/
def pyStr : Option String → String
  | none => "None"
  | some s => s

/-- Python truthiness of an `Optional[str]`: `None` and `""` are falsy. -/
def optStrTruthy : Option String → Bool
  | none => false
  | some s => !s.isEmpty

/-- Python truthiness of an `Optional[int]`: `None` and `0` are falsy. -/
def optIntTruthy : Option Int → Bool
  | none => false
  | some y => y != 0

/-- `LegalChunker._build_section_header`: context header built from the
document metadata, ending in a blank line. -/
def build_section_header (doc : LegalDocument) : String :=
  let p0 := "[" ++ doc.act_name
      ++ (if optIntTruthy doc.act_year then ", " ++ toString (doc.act_year.getD 0) else "")
      ++ "]"
  let parts := [p0]
      ++ (if optStrTruthy doc.chapter then ["Chapter: " ++ pyStr doc.chapter] else [])
      ++ (if optStrTruthy doc.section_number && optStrTruthy doc.section_title then
            ["Section " ++ pyStr doc.section_number ++ ": " ++ pyStr doc.section_title]
          else if optStrTruthy doc.section_number then
            ["Section " ++ pyStr doc.section_number]
          else [])
  String.intercalate " | " parts ++ "\n\n"

/-- `LegalChunker._make_chunk`: identical metadata copy plus the derived
`chunk_id` (`f"{act}_{section}_{index}"`, spaces to underscores,
lower-cased). -/
def make_chunk (doc : LegalDocument) (content : String) (chunk_index : Nat)
    (total_chunks : Int) : Chunk :=
  { chunk_id :=
      ((doc.act_name ++ "_" ++ pyStr doc.section_number ++ "_" ++ toString chunk_index).replace " " "_").toLower
    content := content
    chunk_index := chunk_index
    total_chunks := total_chunks
    act_name := doc.act_name
    act_year := doc.act_year
    chapter := doc.chapter
    section_number := doc.section_number
    section_title := doc.section_title
    doc_type := doc.doc_type
    tags := doc.tags
    source_file := doc.source_file }

/-- The backward walk of the overlap computation in
`LegalChunker.chunk_document` (lines 82–89): iterate over the reversed
sentence list, prepending `sent + " "` while the accumulated token count
stays strictly below `overlap_tokens`; stop at the first sentence that
would reach it.  `tok` models `count_tokens`. -/
def overlapWalk (tok : String → Nat) (overlapT : Nat) :
    List String → String → Nat → String
  | [], txt, _ => txt
  | s :: rest, txt, cnt =>
    if cnt + tok s < overlapT then
      overlapWalk tok overlapT rest (s ++ " " ++ txt) (cnt + tok s)
    else txt

/-- `overlap_text` computed from the sentence list of a just-closed chunk. -/
def overlapOf (tok : String → Nat) (overlapT : Nat) (cur : List String) : String :=
  overlapWalk tok overlapT cur.reverse "" 0

/-- The `while i < len(sentences)` loop of `chunk_document` (lines 70–101),
returning the sentence window of each emitted chunk.  State: `cur` is
`current_chunk_sentences`, `curTok` is `current_token_count`.  On overflow
the current window is closed and the next one is seeded with the overlap
text (a single merged element, exactly as the Python list holds it); the
trailing `if current_chunk_sentences` close is the base case. -/
def chunkLoop (tok : String → Nat) (maxT overlapT headerT : Nat) :
    List String → List String → Nat → List (List String)
  | [], cur, _ => if cur.isEmpty then [] else [cur]
  | s :: rest, cur, curTok =>
    if curTok + tok s > maxT ∧ ¬ cur.isEmpty then
      let ov := overlapOf tok overlapT cur
      let seed : List String := if ov = "" then [] else [ov]
      cur :: chunkLoop tok maxT overlapT headerT rest (seed ++ [s]) (headerT + tok ov + tok s)
    else
      chunkLoop tok maxT overlapT headerT rest (cur ++ [s]) (curTok + tok s)

/-- The sentence windows produced for one document in the multi-chunk
path of `chunk_document`: loop started with an empty window and
`current_token_count = header_tokens`. -/
def chunkWindows (tok : String → Nat) (maxT overlapT headerT : Nat)
    (sentences : List String) : List (List String) :=
  chunkLoop tok maxT overlapT headerT sentences [] headerT

/-- `LegalChunker.chunk_document`.  `tok` models `count_tokens` (the
tiktoken collaborator) and `split` models `_split_into_sentences` (the
sentence-boundary regular expression); both are external to the claims.
If `count_tokens(content) <= max_tokens` the document is emitted as one
chunk whose content is `doc.content` alone (line 60); otherwise the
windows of `chunkLoop` are rendered as `section_header + " ".join(window)`
with provisional `total_chunks = -1`, then the `total_chunks` of every chunk
is backfilled with the final count (lines 103–106). -/
def chunk_document (tok : String → Nat) (split : String → List String)
    (maxT overlapT : Nat) (doc : LegalDocument) : List Chunk :=
  let header := build_section_header doc
  let headerT := tok header
  if tok doc.content ≤ maxT then
    [make_chunk doc doc.content 0 1]
  else
    let windows := chunkWindows tok maxT overlapT headerT (split doc.content)
    let chunks := windows.enum.map fun p =>
      make_chunk doc (header ++ String.intercalate " " p.2) p.1 (-1)
    chunks.map fun c => { c with total_chunks := (chunks.length : Int) }

/-- Overlap-seeding relation between the sentence windows of two
consecutive chunks: whenever the final sentence `l` of the earlier window
costs strictly fewer than `overlapT` tokens, the later window opens with
the overlap text, a string ending in `l + " "` — so the two chunks share
that sentence. -/
def seedRel (tok : String → Nat) (overlapT : Nat) (w w' : List String) : Prop :=
  ∀ l, w.getLast? = some l → tok l < overlapT →
    ∃ p, w'.head? = some (p ++ (l ++ " "))

/-- Bool test: is `p` a leading segment of `l`? -/
def listStartsWith [DecidableEq α] : List α → List α → Bool
  | [], _ => true
  | _ :: _, [] => false
  | a :: as, b :: bs => if a = b then listStartsWith as bs else false

/-- Bool test: does `p` occur contiguously inside `l`? -/
def listHasSub [DecidableEq α] (p : List α) : List α → Bool
  | [] => p.isEmpty
  | b :: rest => listStartsWith p (b :: rest) || listHasSub p rest

/-- The Python `needle in haystack` test on strings. -/
def strContains (haystack needle : String) : Bool :=
  listHasSub needle.toList haystack.toList

/-- A Python dict keyed by hash strings, modelled as an association list
where the most recent insertion comes first.  `V` is the embedding-vector
type, kept abstract (vectors are opaque payloads to the cache logic). -/
def dictLookup {V : Type} (m : List (String × V)) (k : String) : Option V :=
  (m.find? fun p => p.1 == k).map Prod.snd

/-- Dict insertion: the new binding shadows any older binding of `k`. -/
def dictInsert {V : Type} (m : List (String × V)) (k : String) (v : V) :
    List (String × V) :=
  (k, v) :: m

/-- `cache[_text_hash(text)] = emb` in `run_ingestion.py`; `hash` models
`_text_hash` (SHA-256 hex digest of the exact text). -/
def cache_store {V : Type} (hash : String → String) (m : List (String × V))
    (t : String) (v : V) : List (String × V) :=
  dictInsert m (hash t) v

/-- `cache[h] if h in cache else` miss, with `h = _text_hash(text)`. -/
def cache_lookup {V : Type} (hash : String → String) (m : List (String × V))
    (t : String) : Option V :=
  dictLookup m (hash t)

/-- A cache built from the empty dict by a sequence of stores. -/
def cacheOf {V : Type} (hash : String → String) (pairs : List (String × V)) :
    List (String × V) :=
  pairs.foldl (fun c p => cache_store hash c p.1 p.2) []

/-- `embed_with_cache(texts, embedder, cache)` from `run_ingestion.py`.
Pass one resolves every text against the cache and collects the misses;
if any text missed, `embedder.embed_texts` is invoked once on the miss
list (modelled per its contract as `List.map f` for a per-text embedding
function `f`), each result is stored under the hash of its text, and the
result slots of the misses are filled.  Returns (results, final cache,
number of `embed_texts` invocations): the code guards the call with
`if miss_texts:`, so the count is 0 exactly when every text was cached. -/
def embed_with_cache {V : Type} (hash : String → String) (f : String → V)
    (texts : List String) (cache : List (String × V)) :
    List V × List (String × V) × Nat :=
  let misses := texts.filter fun t => (dictLookup cache (hash t)).isNone
  let results := texts.map fun t =>
    match dictLookup cache (hash t) with
    | some v => v
    | none => f t
  let cache2 := misses.foldl (fun c t => dictInsert c (hash t) (f t)) cache
  (results, cache2, if misses.isEmpty then 0 else 1)

/-- `LegalEmbedder._embed_batch_openai` from `embedder.py`: the
`for attempt in range(3)` retry loop.  `api attempt texts` models the
outcome of the OpenAI embeddings call on that attempt.  Returns the
result (`raise last_err` after three failures), the list of batches
passed to the remote call, and the list of back-off delays slept
(`4 * 2 ** attempt` seconds after each failed attempt). -/
def embed_batch_openai {E V : Type} (api : Nat → List String → Except E (List V))
    (texts : List String) :
    Except E (List V) × List (List String) × List Nat :=
  match api 0 texts with
  | Except.ok v => (Except.ok v, [texts], [])
  | Except.error _ =>
    match api 1 texts with
    | Except.ok v => (Except.ok v, [texts, texts], [4])
    | Except.error _ =>
      match api 2 texts with
      | Except.ok v => (Except.ok v, [texts, texts, texts], [4, 8])
      | Except.error e2 => (Except.error e2, [texts, texts, texts], [4, 8, 16])

/-- One retrieval result dict as produced by
`LegalSearcher._format_results`; only the keys that `_build_context` and
the source-citation builders read are modelled (score, chunk_id, chapter,
doc_type, tags and highlights are never consulted on the answer path). -/
structure SearchResult where
  content : String
  act_name : String
  act_year : Option Int
  section_number : Option String
  section_title : Option String
deriving DecidableEq, Repr

/-- The intent dict of `VakilBot._detect_intent`; the `section_lookup`
and `detected_act_name` keys are omitted because `answer` never reads
them. -/
structure Intent where
  act_filter : Option String
  tag_filter : Option (List String)
deriving DecidableEq, Repr

/-- One invocation of `LegalSearcher.hybrid_search` on the answer path:
the query string, `k`, and the act/tag filters (the remaining filter
parameters keep their `None` defaults everywhere in `answer`). -/
structure SearchCall where
  query : String
  k : Nat
  act_filter : Option String
  tag_filter : Option (List String)
deriving DecidableEq, Repr

/-- Python `str.lower()`, spelled over the character list so that it
evaluates inside the kernel (it agrees with `String.toLower`, which maps
`Char.toLower` over the characters). -/
def strLower (s : String) : String :=
  String.mk (s.toList.map Char.toLower)

/-- Python `str.strip()`: drop leading and trailing whitespace; spelled
over the character list so that it evaluates inside the kernel. -/
def strTrim (s : String) : String :=
  String.mk (((s.toList.dropWhile Char.isWhitespace).reverse.dropWhile
    Char.isWhitespace).reverse)

/-- The `act_hints` table of `_detect_intent`, in insertion order (first
match wins). -/
def act_hints : List (String × String) :=
  [("bns", "Bharatiya Nyay Sanhita, 2023"),
   ("bnss", "Bharatiya Nagrik Suraksha Sanhita, 2023"),
   ("companiesvact", "Companies Act, 2013"),
   ("constitution", "The Constitution of India, 1950"),
   ("consumer protection act", "Consumer Protection Act, 2019"),
   ("it act", "Information Technology Act, 2020"),
   ("pocso act", "Protection of Children from Sexual Offences Act, 2012"),
   ("labour laws", "Labour Laws, 2025"),
   ("domestic violence", "Women Protection Act, 2005")]

/-- The `tag_map` table of `_detect_intent`, in insertion order. -/
def tag_map : List (String × List String) :=
  [("cybercrime", ["cybercrime", "hacking", "data", "computer fraud"]),
   ("criminal", ["murder", "theft", "assault", "robbery", "fraud"]),
   ("family", ["divorce", "marriage", "custody", "alimony"]),
   ("corporate", ["company", "director", "shareholder", "incorporation"])]

/-- `VakilBot._detect_intent` (the act and tag detection; the
section-number regular expression only feeds the omitted unused keys):
lower-case the query, take the first act hint occurring in it, and
collect every tag one of whose keywords occurs in it (`None` when no tag
matched). -/
def detect_intent (query : String) : Intent :=
  let ql := strLower query
  let detected_act := (act_hints.find? fun p => strContains ql p.1).map Prod.snd
  let detected_tags := (tag_map.filter fun p => p.2.any fun kw => strContains ql kw).map Prod.fst
  { act_filter := detected_act
    tag_filter := if detected_tags.isEmpty then none else some detected_tags }

/-- The Python `a or b` idiom on optional strings
(`act_filter or intent["act_filter"]`): keep `a` when truthy, else `b`. -/
def pyOr (a b : Option String) : Option String :=
  if optStrTruthy a then a else b

/-- `VakilBot._rewrite_query`: one delegated chat-completion call
(`rwLLM`, the collaborator, which may fail) followed by `.strip()` of the
returned message content. -/
def rewrite_query {E : Type} (rwLLM : String → Except E String) (query : String) :
    Except E String :=
  (rwLLM query).map fun s => strTrim s

/-- `VakilBot._build_context`: the fixed placeholder on an empty result
list, otherwise numbered source blocks with a citation tag built from
act, year, section number and title. -/
def build_context (results : List SearchResult) : String :=
  if results.isEmpty then "No relevant legal provisions found."
  else
    String.intercalate "\n" (results.enum.map fun p =>
      let c0 := "[" ++ p.2.act_name
          ++ (if optIntTruthy p.2.act_year then ", " ++ toString (p.2.act_year.getD 0) else "")
          ++ "]"
      let c1 := if optStrTruthy p.2.section_number then
          c0 ++ " Section " ++ pyStr p.2.section_number
            ++ (if optStrTruthy p.2.section_title then " — " ++ pyStr p.2.section_title else "")
        else c0
      "--- Source " ++ toString (p.1 + 1) ++ ": " ++ c1 ++ " ---\n" ++ p.2.content ++ "\n")

/-- The fixed system instruction of `vakilbot.py`.  Its exact text is
never inspected by any property, so only the opening line is carried. -/
def SYSTEM_PROMPT : String :=
  "You are VakilBot, an expert AI legal assistant specializing in Indian law."

/-- The user prompt assembled in `VakilBot.answer` (step 4). -/
def user_prompt_of (query context : String) : String :=
  "User Question: " ++ query ++ "\n\nLegal Context:\n" ++ context
    ++ "\n\nPlease provide a comprehensive answer based strictly on the above legal context."

/-- The trailing source-citation block shared by `_stream_response` and
`_generate_response`: top 3 results, numbered from 1. -/
def sources_of (results : List SearchResult) : String :=
  "\n\n---\n**Sources Retrieved:**\n"
    ++ String.join ((results.take 3).enum.map fun p =>
        toString (p.1 + 1) ++ ". " ++ p.2.act_name
          ++ (if optStrTruthy p.2.section_number then
                ", Section " ++ pyStr p.2.section_number
              else "")
          ++ "\n")

/-- `VakilBot._generate_response`: the generation collaborator `gen`
applied to the system prompt and user prompt, with the source citations
appended.  (`_stream_response` yields the same text incrementally.) -/
def generate_response (gen : String → String → String)
    (results : List SearchResult) (user_prompt : String) : String :=
  gen SYSTEM_PROMPT user_prompt ++ sources_of results

/-- `VakilBot.answer`: intent detection, query rewriting (a rewrite
failure propagates — the Python has no handler around
`self._rewrite_query`), filtered hybrid retrieval, the one unfiltered
fallback retrieval when the filtered search came back empty AND an
effective act filter was applied (`if not results and
effective_act_filter`), context building and generation.  `search` is
the Elasticsearch collaborator; the returned list of `SearchCall`s is
the trace of retrieval invocations, in order. -/
def answer {E : Type} (search : SearchCall → List SearchResult)
    (rwLLM : String → Except E String) (gen : String → String → String)
    (k : Nat) (query : String) (act_filter : Option String) :
    Except E (String × List SearchCall) :=
  let intent := detect_intent query
  match rewrite_query rwLLM query with
  | Except.error e => Except.error e
  | Except.ok rewritten =>
    let eff := pyOr act_filter intent.act_filter
    let call1 : SearchCall := ⟨rewritten, k, eff, intent.tag_filter⟩
    let results1 := search call1
    let pr : List SearchResult × List SearchCall :=
      if results1.isEmpty && optStrTruthy eff then
        (search ⟨rewritten, k, none, none⟩, [call1, ⟨rewritten, k, none, none⟩])
      else (results1, [call1])
    let context := build_context pr.1
    Except.ok (generate_response gen pr.1 (user_prompt_of query context), pr.2)

/-- The retrieval-call trace of one `answer` run (empty when the rewrite
call failed, in which case no retrieval happens at all). -/
def answerCalls {E : Type} (search : SearchCall → List SearchResult)
    (rwLLM : String → Except E String) (gen : String → String → String)
    (k : Nat) (query : String) (act_filter : Option String) : List SearchCall :=
  match answer search rwLLM gen k query act_filter with
  | Except.ok p => p.2
  | Except.error _ => []

/-- A short Information Technology Act section used as concrete input:
its content is far below any realistic token budget. -/
def docC1 : LegalDocument :=
  { content := "Hacking is punishable."
    source_file := "it-act-2020.pdf"
    act_name := "Information Technology Act"
    act_year := some 2020
    section_number := some "66"
    section_title := some "Hacking"
    tags := ["cybercrime"] }

/-- A three-sentence section that needs several chunks under a small
token budget. -/
def doc5 : LegalDocument :=
  { content := "Aaaa. Bbbb. Cccc.", source_file := "x.pdf", act_name := "X" }

/-- The sentence split the boundary regular expression of
`_split_into_sentences` produces on `doc5.content` (a boundary after
each full stop followed by a space and an uppercase letter). -/
def split5 : String → List String := fun _ => ["Aaaa.", "Bbbb.", "Cccc."]

/-- A section with empty content. -/
def docEmpty : LegalDocument :=
  { content := "", source_file := "e.pdf", act_name := "E" }

/-- C1: the claim reads "chunk_document returns exactly one Chunk whose
content equals the contextual header followed by the original section
content" for sections within the token budget.  At the concrete section
`docC1` the code does return exactly one chunk, but its content is the
bare section content: line 60 of `chunker.py` passes `doc.content`
without prepending `section_header`, contradicting the docstring of
the chunker itself ("Always preserves section context in every chunk"). -/
theorem chunk_document_single_drops_header :
    (chunk_document String.length (fun s => [s]) 512 64 docC1).map Chunk.content
      = [docC1.content]
    ∧ docC1.content ≠ build_section_header docC1 ++ docC1.content := by
  decide

/-- C2 counterexample: the claim "a ParsedSection whose content is empty
yields zero chunks" is false: on `docEmpty` the empty content counts 0
tokens, the single-chunk branch fires, and exactly one chunk (with empty
content) is returned. -/
theorem chunk_document_empty_not_zero :
    chunk_document String.length (fun _ => []) 512 64 docEmpty ≠ []
    ∧ (chunk_document String.length (fun _ => []) 512 64 docEmpty).length = 1 := by
  decide

/-- C2 amended: a ParsedSection with empty content (whose token count is
within `maxTokens`) yields exactly one chunk, produced by the
single-chunk branch, with the empty string as content. -/
theorem chunk_document_empty_single (tok : String → Nat) (split : String → List String)
    (maxT overlapT : Nat) (doc : LegalDocument)
    (hempty : doc.content = "") (hfit : tok doc.content ≤ maxT) :
    chunk_document tok split maxT overlapT doc = [make_chunk doc "" 0 1] := by
  simp only [chunk_document]
  rw [if_pos hfit, hempty]

/-- Witness for the amended C2 at a concrete empty section. -/
theorem chunk_document_empty_single_witness :
    chunk_document String.length (fun _ => []) 512 64 docEmpty
      = [make_chunk docEmpty "" 0 1] :=
  chunk_document_empty_single String.length (fun _ => []) 512 64 docEmpty rfl
    (by decide)

/-- C6: in the sequence returned by `chunk_document`, `chunk_index` is
0-based and contiguous (the i-th chunk carries index i) and
`total_chunks` of every chunk equals the number of chunks produced. -/
theorem chunk_document_index_total (tok : String → Nat) (split : String → List String)
    (maxT overlapT : Nat) (doc : LegalDocument) :
    (chunk_document tok split maxT overlapT doc).map Chunk.chunk_index
      = List.range (chunk_document tok split maxT overlapT doc).length
    ∧ ∀ c ∈ chunk_document tok split maxT overlapT doc,
        c.total_chunks = ((chunk_document tok split maxT overlapT doc).length : Int) := by
  by_cases hc : tok doc.content ≤ maxT
  · simp [chunk_document, hc, make_chunk]
    decide
  · constructor
    · simp [chunk_document, hc, make_chunk, List.map_map, Function.comp_def]
    · intro c hcm
      simp only [chunk_document, hc, if_false, List.mem_map] at hcm ⊢
      obtain ⟨c', _, rfl⟩ := hcm
      simp

/-- Witness for C6: the three-chunk run on `doc5` has indices `[0, 1, 2]`
and the middle chunk carries total 3. -/
theorem chunk_document_index_total_witness :
    (chunk_document String.length split5 12 1 doc5).map Chunk.chunk_index
      = List.range (chunk_document String.length split5 12 1 doc5).length
    ∧ ((chunk_document String.length split5 12 1 doc5).get ⟨1, by decide⟩).total_chunks
        = ((chunk_document String.length split5 12 1 doc5).length : Int) :=
  ⟨(chunk_document_index_total String.length split5 12 1 doc5).1,
   (chunk_document_index_total String.length split5 12 1 doc5).2 _
     (List.get_mem _ _ _)⟩

theorem enum_map_snd_comp {α β : Type} (l : List α) (g : α → β) :
    l.enum.map (fun p => g p.2) = l.map g := by
  have h1 : (fun p : Nat × α => g p.2) = g ∘ Prod.snd := rfl
  rw [h1, ← List.map_map, List.enum_map_snd]

theorem overlapWalk_append (tok : String → Nat) (overlapT : Nat) :
    ∀ (rl : List String) (txt : String) (cnt : Nat),
      ∃ p, overlapWalk tok overlapT rl txt cnt = p ++ txt
  | [], txt, cnt => ⟨"", by simp [overlapWalk]⟩
  | s :: rl, txt, cnt => by
    simp only [overlapWalk]
    by_cases hcond : cnt + tok s < overlapT
    · simp only [hcond, if_true]
      obtain ⟨p', hp'⟩ := overlapWalk_append tok overlapT rl (s ++ " " ++ txt) (cnt + tok s)
      exact ⟨p' ++ (s ++ " "), by rw [hp']; simp [String.append_assoc]⟩
    · simp only [hcond, if_false]
      exact ⟨"", by simp⟩

/-- When the final sentence `l` of the just-closed window costs strictly
fewer than `overlap_tokens` tokens, the backward walk takes at least that
sentence, so the overlap text ends in `l + " "`. -/
theorem overlapOf_close (tok : String → Nat) (overlapT : Nat) (cur : List String)
    (l : String) (hl : cur.getLast? = some l) (hlt : tok l < overlapT) :
    ∃ p, overlapOf tok overlapT cur = p ++ (l ++ " ") := by
  have hrev : cur.reverse.head? = some l := by
    rw [List.head?_reverse]; exact hl
  obtain ⟨rl', hrl'⟩ : ∃ rl', cur.reverse = l :: rl' := by
    cases hc : cur.reverse with
    | nil => rw [hc] at hrev; simp at hrev
    | cons a as =>
      rw [hc] at hrev
      simp only [List.head?_cons, Option.some.injEq] at hrev
      exact ⟨as, by rw [hrev]⟩
  unfold overlapOf
  rw [hrl']
  simp only [overlapWalk, Nat.zero_add, hlt, if_true]
  obtain ⟨p, hp⟩ := overlapWalk_append tok overlapT rl' (l ++ " " ++ "") (tok l)
  refine ⟨p, ?_⟩
  rw [hp]
  simp

/-- No sentence is dropped and order is preserved: the sentences still to
be consumed (after the current window) form a subsequence of the
concatenation of the emitted windows. -/
theorem chunkLoop_sublist (tok : String → Nat) (maxT overlapT headerT : Nat) :
    ∀ (rest cur : List String) (curTok : Nat),
      List.Sublist (cur ++ rest)
        (chunkLoop tok maxT overlapT headerT rest cur curTok).flatten
  | [], cur, curTok => by
    by_cases hcur : cur.isEmpty
    · rw [List.isEmpty_iff] at hcur
      simp [chunkLoop, hcur]
    · simp only [chunkLoop, hcur, if_false]
      simp
  | s :: rest, cur, curTok => by
    simp only [chunkLoop]
    by_cases hcond : curTok + tok s > maxT ∧ ¬ cur.isEmpty
    · simp only [hcond, if_true, List.flatten_cons]
      refine List.Sublist.append_left ?_ cur
      refine List.Sublist.trans ?_
        (chunkLoop_sublist tok maxT overlapT headerT rest
          ((if overlapOf tok overlapT cur = "" then [] else [overlapOf tok overlapT cur]) ++ [s])
          (headerT + tok (overlapOf tok overlapT cur) + tok s))
      rw [List.append_assoc]
      exact List.sublist_append_right _ _
    · simp only [hcond, if_false]
      have h := chunkLoop_sublist tok maxT overlapT headerT rest (cur ++ [s]) (curTok + tok s)
      rwa [List.append_assoc, List.singleton_append] at h

/-- Every emitted window is nonempty: a window is only closed when
`current_chunk_sentences` is nonempty. -/
theorem chunkLoop_ne_nil (tok : String → Nat) (maxT overlapT headerT : Nat) :
    ∀ (rest cur : List String) (curTok : Nat) (w : List String),
      w ∈ chunkLoop tok maxT overlapT headerT rest cur curTok → w ≠ []
  | [], cur, curTok, w => by
    intro hmem
    by_cases hcur : cur.isEmpty
    · simp [chunkLoop, hcur] at hmem
    · simp only [chunkLoop, if_neg hcur, List.mem_singleton] at hmem
      subst hmem
      simpa [List.isEmpty_iff] using hcur
  | s :: rest, cur, curTok, w => by
    intro hmem
    simp only [chunkLoop] at hmem
    by_cases hcond : curTok + tok s > maxT ∧ ¬ cur.isEmpty
    · rw [if_pos hcond] at hmem
      rcases List.mem_cons.mp hmem with rfl | h2
      · intro he
        rw [he] at hcond
        simp at hcond
      · exact chunkLoop_ne_nil tok maxT overlapT headerT rest _ _ w h2
    · rw [if_neg hcond] at hmem
      exact chunkLoop_ne_nil tok maxT overlapT headerT rest _ _ w hmem

/-- The first window the loop emits extends the current window. -/
theorem chunkLoop_head (tok : String → Nat) (maxT overlapT headerT : Nat) :
    ∀ (rest cur : List String) (curTok : Nat), cur ≠ [] →
      ∃ t ws, chunkLoop tok maxT overlapT headerT rest cur curTok = (cur ++ t) :: ws
  | [], cur, curTok => by
    intro hcur
    have hne : ¬ cur.isEmpty := by simpa [List.isEmpty_iff] using hcur
    simp only [chunkLoop, if_neg hne]
    exact ⟨[], [], by simp⟩
  | s :: rest, cur, curTok => by
    intro hcur
    simp only [chunkLoop]
    by_cases hcond : curTok + tok s > maxT ∧ ¬ cur.isEmpty
    · rw [if_pos hcond]
      refine ⟨[], chunkLoop tok maxT overlapT headerT rest
        ((if overlapOf tok overlapT cur = "" then [] else [overlapOf tok overlapT cur]) ++ [s])
        (headerT + tok (overlapOf tok overlapT cur) + tok s), ?_⟩
      rw [List.append_nil]
    · rw [if_neg hcond]
      obtain ⟨t, ws, ht⟩ :=
        chunkLoop_head tok maxT overlapT headerT rest (cur ++ [s]) (curTok + tok s)
          (by simp)
      exact ⟨[s] ++ t, ws, by rw [ht, List.append_assoc]⟩

/-- Consecutive windows stand in the overlap-seeding relation. -/
theorem chunkLoop_chain (tok : String → Nat) (maxT overlapT headerT : Nat) :
    ∀ (rest cur : List String) (curTok : Nat),
      List.Chain' (seedRel tok overlapT)
        (chunkLoop tok maxT overlapT headerT rest cur curTok)
  | [], cur, curTok => by
    simp only [chunkLoop]
    split
    · exact List.chain'_nil
    · exact List.chain'_singleton _
  | s :: rest, cur, curTok => by
    simp only [chunkLoop]
    by_cases hcond : curTok + tok s > maxT ∧ ¬ cur.isEmpty
    · rw [if_pos hcond]
      refine List.Chain'.cons'
        (chunkLoop_chain tok maxT overlapT headerT rest _ _) ?_
      intro y hy l hl hlt
      obtain ⟨p, hov⟩ := overlapOf_close tok overlapT cur l hl hlt
      have hovne : overlapOf tok overlapT cur ≠ "" := by
        rw [hov]
        intro he
        have hlen := congrArg String.length he
        simp at hlen
        exact absurd hlen.2.2 (by decide)
      obtain ⟨t, ws, ht⟩ :=
        chunkLoop_head tok maxT overlapT headerT rest
          ((if overlapOf tok overlapT cur = "" then [] else [overlapOf tok overlapT cur]) ++ [s])
          (headerT + tok (overlapOf tok overlapT cur) + tok s)
          (by simp)
      rw [ht] at hy
      simp only [List.head?_cons, Option.mem_def, Option.some.injEq] at hy
      subst hy
      refine ⟨p, ?_⟩
      rw [if_neg hovne]
      simp [hov]
    · rw [if_neg hcond]
      exact chunkLoop_chain tok maxT overlapT headerT rest _ _

/-- C5 counterexample: with `overlapTokens = 1 > 0` the claim "every pair
of consecutive chunks shares at least one overlapping sentence" fails.
On `doc5` under a budget of 12 tokens, every sentence costs 5 tokens, so
the backward overlap walk takes nothing (5 < 1 is false) and the three
chunks produced are pairwise disjoint in sentences: no sentence of the
section occurs in both the first and the second chunk. -/
theorem chunk_document_no_shared_sentence :
    (chunk_document String.length split5 12 1 doc5).map Chunk.content
      = ["[X]\n\nAaaa.", "[X]\n\nBbbb.", "[X]\n\nCccc."]
    ∧ ¬ ∃ s ∈ split5 doc5.content,
        strContains "[X]\n\nAaaa." s = true ∧ strContains "[X]\n\nBbbb." s = true := by
  decide

/-- C5 amended: for a section that needs several chunks, the content of
each chunk is the header followed by the space-join of its sentence window;
the original sentence sequence is a subsequence of the concatenated
windows (all sentences kept, in order, none dropped); every window is
nonempty; and a chunk shares its final sentence with the next chunk
whenever that sentence costs strictly fewer than `overlapTokens` tokens
(`seedRel`) — when the final sentence already reaches the overlap budget
the seed is empty and consecutive chunks may share no sentence. -/
theorem chunk_document_multi (tok : String → Nat) (split : String → List String)
    (maxT overlapT : Nat) (doc : LegalDocument)
    (hmulti : maxT < tok doc.content) :
    (chunk_document tok split maxT overlapT doc).map Chunk.content
      = (chunkWindows tok maxT overlapT (tok (build_section_header doc))
          (split doc.content)).map
          (fun w => build_section_header doc ++ String.intercalate " " w)
    ∧ List.Sublist (split doc.content)
        (chunkWindows tok maxT overlapT (tok (build_section_header doc))
          (split doc.content)).flatten
    ∧ (∀ w ∈ chunkWindows tok maxT overlapT (tok (build_section_header doc))
          (split doc.content), w ≠ [])
    ∧ List.Chain' (seedRel tok overlapT)
        (chunkWindows tok maxT overlapT (tok (build_section_header doc))
          (split doc.content)) := by
  have hc : ¬ tok doc.content ≤ maxT := not_le.mpr hmulti
  refine ⟨?_, ?_, ?_, ?_⟩
  · simp only [chunk_document, hc, if_false, List.map_map]
    rw [← enum_map_snd_comp
      (chunkWindows tok maxT overlapT (tok (build_section_header doc)) (split doc.content))
      (fun w => build_section_header doc ++ String.intercalate " " w)]
    congr 1
  · simpa using chunkLoop_sublist tok maxT overlapT (tok (build_section_header doc))
      (split doc.content) [] (tok (build_section_header doc))
  · exact fun w hw => chunkLoop_ne_nil tok maxT overlapT (tok (build_section_header doc))
      (split doc.content) [] (tok (build_section_header doc)) w hw
  · exact chunkLoop_chain tok maxT overlapT (tok (build_section_header doc))
      (split doc.content) [] (tok (build_section_header doc))

/-- Witness for the amended C5: `doc5` under a 12-token budget with
`overlapTokens = 7` produces several chunks; the conclusion is obtained
by applying the amended theorem at this input. -/
theorem chunk_document_multi_witness :
    (chunk_document String.length split5 12 7 doc5).map Chunk.content
      = (chunkWindows String.length 12 7
          (String.length (build_section_header doc5)) (split5 doc5.content)).map
          (fun w => build_section_header doc5 ++ String.intercalate " " w)
    ∧ List.Sublist (split5 doc5.content)
        (chunkWindows String.length 12 7
          (String.length (build_section_header doc5)) (split5 doc5.content)).flatten
    ∧ (∀ w ∈ chunkWindows String.length 12 7
          (String.length (build_section_header doc5)) (split5 doc5.content), w ≠ [])
    ∧ List.Chain' (seedRel String.length 7)
        (chunkWindows String.length 12 7
          (String.length (build_section_header doc5)) (split5 doc5.content)) :=
  chunk_document_multi String.length split5 12 7 doc5 (by decide)

/-- Folding stores over a list never changes the binding of a key whose
text is not among the stored texts (hash injectivity rules out
collisions). -/
theorem dictLookup_foldl_store {V : Type} (hash : String → String)
    (hinj : Function.Injective hash) :
    ∀ (pairs : List (String × V)) (acc : List (String × V)) (t : String),
      t ∉ pairs.map Prod.fst →
      dictLookup (pairs.foldl (fun c p => cache_store hash c p.1 p.2) acc) (hash t)
        = dictLookup acc (hash t)
  | [], _, _, _ => rfl
  | p :: ps, acc, t, hni => by
    have h1 : ¬(t = p.1 ∨ t ∈ ps.map Prod.fst) := by
      simpa using hni
    rw [not_or] at h1
    rw [List.foldl_cons,
      dictLookup_foldl_store hash hinj ps _ t h1.2]
    have hne : (hash p.1 == hash t) = false := by
      simp only [beq_eq_false_iff_ne, ne_eq]
      intro he
      exact h1.1 (hinj he).symm
    simp [cache_store, dictInsert, dictLookup, List.find?_cons, hne]

/-- A left fold of dict insertions prepends the reversed bindings. -/
theorem foldl_dictInsert_eq {V : Type} (hash : String → String) (f : String → V) :
    ∀ (ms : List String) (acc : List (String × V)),
      ms.foldl (fun c t => dictInsert c (hash t) (f t)) acc
        = (ms.reverse.map fun t => (hash t, f t)) ++ acc
  | [], acc => by simp
  | m :: ms, acc => by
    rw [List.foldl_cons, foldl_dictInsert_eq hash f ms]
    simp [dictInsert]

/-- In the bindings created for the miss texts, the key of a text that
was actually missed resolves to its own embedding (hash injectivity). -/
theorem find?_map_hash {V : Type} (hash : String → String) (f : String → V)
    (hinj : Function.Injective hash) (t : String) :
    ∀ ms : List String, t ∈ ms →
      (ms.map fun u => (hash u, f u)).find? (fun p => p.1 == hash t)
        = some (hash t, f t)
  | [], hm => absurd hm (List.not_mem_nil t)
  | m :: ms, hm => by
    by_cases he : hash m = hash t
    · have hmt : m = t := hinj he
      subst hmt
      simp [List.find?_cons]
    · have ht : t ∈ ms := by
        rcases List.mem_cons.mp hm with rfl | h
        · exact absurd rfl he
        · exact h
      have hne : (hash m == hash t) = false := by
        simpa using he
      simp only [List.map_cons, List.find?_cons, hne]
      exact find?_map_hash hash f hinj t ms ht

/-- The bindings created for the miss texts never touch a key that no
miss text hashes to. -/
theorem find?_map_hash_none {V : Type} (hash : String → String) (f : String → V)
    (k : String) (ms : List String) (h : ∀ u ∈ ms, hash u ≠ k) :
    (ms.map fun u => (hash u, f u)).find? (fun p => p.1 == k) = none := by
  rw [List.find?_eq_none]
  intro p hp
  simp only [List.mem_map] at hp
  obtain ⟨u, hu, rfl⟩ := hp
  simpa using h u hu

/-- C7: the embedding-cache contract.  (i) Storing a vector for a text
and looking the same text up returns that vector.  (ii) With the
collision-resistant key derivation (modelled as an injective hash), a
lookup of a text never stored returns none.  (iii) When every input text
is already cached, `embed_with_cache` makes zero `embed_texts`
invocations, leaves the cache untouched, and returns exactly the cached
vectors, pairwise in input order. -/
theorem embedding_cache_contract {V : Type} :
    (∀ (hash : String → String) (cache : List (String × V)) (t : String) (v : V),
      cache_lookup hash (cache_store hash cache t v) t = some v)
    ∧ (∀ hash : String → String, Function.Injective hash →
        ∀ (pairs : List (String × V)) (t : String), t ∉ pairs.map Prod.fst →
          cache_lookup hash (cacheOf hash pairs) t = none)
    ∧ (∀ (hash : String → String) (f : String → V) (texts : List String)
        (cache : List (String × V)),
        (∀ t ∈ texts, (dictLookup cache (hash t)).isSome) →
          (embed_with_cache hash f texts cache).2.2 = 0
          ∧ (embed_with_cache hash f texts cache).2.1 = cache
          ∧ List.Forall₂ (fun t r => cache_lookup hash cache t = some r) texts
              (embed_with_cache hash f texts cache).1) := by
  refine ⟨?_, ?_, ?_⟩
  · intro hash cache t v
    simp [cache_lookup, cache_store, dictInsert, dictLookup, List.find?_cons]
  · intro hash hinj pairs t hni
    unfold cache_lookup cacheOf
    rw [dictLookup_foldl_store hash hinj pairs [] t hni]
    rfl
  · intro hash f texts cache hall
    have hmiss : (texts.filter fun t => (dictLookup cache (hash t)).isNone) = [] := by
      rw [List.filter_eq_nil_iff]
      intro t ht
      have hs := hall t ht
      simp [Option.isNone_eq_false_iff, Option.isSome_iff_ne_none] at hs ⊢
      exact hs
    refine ⟨?_, ?_, ?_⟩
    · simp [embed_with_cache, hmiss]
    · simp [embed_with_cache, hmiss]
    · simp only [embed_with_cache, hmiss]
      rw [List.forall₂_map_right_iff, List.forall₂_same]
      intro t ht
      have hs := hall t ht
      rw [Option.isSome_iff_exists] at hs
      obtain ⟨v, hv⟩ := hs
      simp [cache_lookup, hv]

/-- C7 witness: a concrete run of every part of the contract with the
identity as (injective) hash and natural-number vectors. -/
theorem embedding_cache_contract_witness :
    cache_lookup id (cache_store id ([] : List (String × Nat)) "text" 7) "text" = some 7
    ∧ cache_lookup id (cacheOf id [("stored", (1 : Nat))]) "unseen" = none
    ∧ (embed_with_cache id (fun _ => 9) ["stored"] [("stored", (5 : Nat))]).2.2 = 0
    ∧ (embed_with_cache id (fun _ => 9) ["stored"] [("stored", (5 : Nat))]).2.1
        = [("stored", 5)]
    ∧ List.Forall₂ (fun t r => cache_lookup id [("stored", (5 : Nat))] t = some r)
        ["stored"] (embed_with_cache id (fun _ => 9) ["stored"] [("stored", (5 : Nat))]).1 := by
  have h := embedding_cache_contract (V := Nat)
  have h3 := h.2.2 id (fun _ => 9) ["stored"] [("stored", 5)] (by decide)
  exact ⟨h.1 id [] "text" 7,
    h.2.1 id (fun a b hab => hab) [("stored", 1)] "unseen" (by decide),
    h3.1, h3.2.1, h3.2.2⟩

/-- C9: `embed_with_cache` returns one vector per input text in input
order; afterwards the hash of every input text is bound in the cache to
the returned vector for that text; and no pre-existing cache binding is
removed or overwritten (the cache only grows).  Hash injectivity models
the collision-resistant SHA-256 key derivation. -/
theorem dictLookup_append_none {V : Type} (m1 m2 : List (String × V)) (k : String)
    (h : m1.find? (fun p => p.1 == k) = none) :
    dictLookup (m1 ++ m2) k = dictLookup m2 k := by
  simp [dictLookup, List.find?_append, h]

theorem dictLookup_append_some {V : Type} (m1 m2 : List (String × V)) (k : String)
    (pr : String × V) (h : m1.find? (fun p => p.1 == k) = some pr) :
    dictLookup (m1 ++ m2) k = some pr.2 := by
  simp [dictLookup, List.find?_append, h]

/-- C9: `embed_with_cache` returns one vector per input text in input
order; afterwards the hash of every input text is bound in the cache to
the returned vector for that text; and no pre-existing cache binding is
removed or overwritten (the cache only grows).  Hash injectivity models
the collision-resistant SHA-256 key derivation. -/
theorem embed_with_cache_growth {V : Type} (hash : String → String) (f : String → V)
    (texts : List String) (cache : List (String × V))
    (hinj : Function.Injective hash) :
    (embed_with_cache hash f texts cache).1.length = texts.length
    ∧ List.Forall₂
        (fun t r => cache_lookup hash (embed_with_cache hash f texts cache).2.1 t
          = some r)
        texts (embed_with_cache hash f texts cache).1
    ∧ (∀ k v, dictLookup cache k = some v →
        dictLookup (embed_with_cache hash f texts cache).2.1 k = some v) := by
  have hmem_ne : ∀ k v, dictLookup cache k = some v →
      ∀ u ∈ (texts.filter fun t => (dictLookup cache (hash t)).isNone).reverse,
        hash u ≠ k := by
    intro k v hv u hu he
    have hu2 := List.mem_reverse.mp hu
    have hpred := (List.mem_filter.mp hu2).2
    rw [he, hv] at hpred
    simp at hpred
  have hcache2 : (embed_with_cache hash f texts cache).2.1
      = ((texts.filter fun u => (dictLookup cache (hash u)).isNone).reverse.map
          fun u => (hash u, f u)) ++ cache := by
    simp only [embed_with_cache]
    exact foldl_dictInsert_eq hash f _ cache
  refine ⟨by simp [embed_with_cache], ?_, ?_⟩
  · have hres : (embed_with_cache hash f texts cache).1
        = texts.map fun t =>
            match dictLookup cache (hash t) with
            | some v => v
            | none => f t := rfl
    rw [hres, hcache2, List.forall₂_map_right_iff, List.forall₂_same]
    intro t ht
    cases hv : dictLookup cache (hash t) with
    | some v =>
      have hnone := find?_map_hash_none hash f (hash t)
        (texts.filter fun u => (dictLookup cache (hash u)).isNone).reverse
        (hmem_ne (hash t) v hv)
      simp only [cache_lookup]
      rw [dictLookup_append_none _ _ _ hnone, hv]
    | none =>
      have hmem : t ∈ (texts.filter fun u => (dictLookup cache (hash u)).isNone).reverse := by
        rw [List.mem_reverse, List.mem_filter]
        exact ⟨ht, by simp [hv]⟩
      have hfound := find?_map_hash hash f hinj t _ hmem
      simp only [cache_lookup]
      rw [dictLookup_append_some _ _ _ _ hfound]
  · intro k v hv
    have hnone := find?_map_hash_none hash f k
      (texts.filter fun u => (dictLookup cache (hash u)).isNone).reverse
      (hmem_ne k v hv)
    rw [hcache2, dictLookup_append_none _ _ _ hnone]
    exact hv

/-- C9 witness: a mixed hit/miss run with the identity hash; the miss is
stored, the hit is returned, the pre-existing binding survives. -/
theorem embed_with_cache_growth_witness :
    (embed_with_cache id (fun _ => 3) ["a"] ([("b", (1 : Nat))])).1.length = 1
    ∧ List.Forall₂
        (fun t r => cache_lookup id (embed_with_cache id (fun _ => 3) ["a"]
          ([("b", (1 : Nat))])).2.1 t = some r)
        ["a"] (embed_with_cache id (fun _ => 3) ["a"] ([("b", (1 : Nat))])).1
    ∧ dictLookup (embed_with_cache id (fun _ => 3) ["a"]
        ([("b", (1 : Nat))])).2.1 "b" = some 1 := by
  have h := embed_with_cache_growth id (fun _ => 3) ["a"] [("b", (1 : Nat))]
    (fun a b hab => hab)
  exact ⟨h.1, h.2.1, h.2.2 "b" 1 rfl⟩

/-- C8: the remote-embedding retry loop calls the OpenAI endpoint at
most 3 times, always on the same batch; the back-off delays slept follow
the doubling schedule `4 * 2 ^ attempt` (4 s, 8 s, 16 s); and when all
three attempts fail, the last error is raised. -/
theorem embed_batch_retry {E V : Type} (api : Nat → List String → Except E (List V))
    (texts : List String) :
    ((embed_batch_openai api texts).2.1.length ≤ 3
      ∧ ∀ b ∈ (embed_batch_openai api texts).2.1, b = texts)
    ∧ (embed_batch_openai api texts).2.2
        = ((List.range (embed_batch_openai api texts).2.2.length).map (fun i => 4 * 2 ^ i))
    ∧ (∀ e0 e1 e2, api 0 texts = Except.error e0 → api 1 texts = Except.error e1 →
        api 2 texts = Except.error e2 →
        (embed_batch_openai api texts).1 = Except.error e2
        ∧ (embed_batch_openai api texts).2.1.length = 3) := by
  cases h0 : api 0 texts with
  | ok v =>
    refine ⟨⟨?_, ?_⟩, ?_, ?_⟩ <;>
      simp [embed_batch_openai, h0]
  | error e =>
    cases h1 : api 1 texts with
    | ok v =>
      refine ⟨⟨?_, ?_⟩, ?_, ?_⟩ <;>
        simp [embed_batch_openai, h0, h1, List.range_succ]
    | error e' =>
      cases h2 : api 2 texts with
      | ok v =>
        refine ⟨⟨?_, ?_⟩, ?_, ?_⟩ <;>
          simp [embed_batch_openai, h0, h1, h2, List.range_succ]
      | error e'' =>
        refine ⟨⟨?_, ?_⟩, ?_, ?_⟩ <;>
          simp [embed_batch_openai, h0, h1, h2, List.range_succ]

/-- C8 witness: a permanently failing endpoint is called three times on
the same batch, sleeps 4, 8 and 16 seconds, and raises the last error. -/
theorem embed_batch_retry_witness :
    ((embed_batch_openai (fun _ _ => Except.error 0) (["t"] : List String)
        : Except Nat (List Nat) × List (List String) × List Nat).1 = Except.error 0
      ∧ (embed_batch_openai (fun _ _ => Except.error 0) (["t"] : List String)
        : Except Nat (List Nat) × List (List String) × List Nat).2.1.length = 3)
    ∧ (embed_batch_openai (fun _ _ => Except.error 0) (["t"] : List String)
        : Except Nat (List Nat) × List (List String) × List Nat).2.2 = [4, 8, 16] :=
  ⟨(embed_batch_retry (fun _ _ => Except.error 0) ["t"]).2.2 0 0 0 rfl rfl rfl,
   by decide⟩

/-- C3 counterexample: the claim says the unfiltered retry fires when
retrieval is empty and ANY filter (act or tag) was applied.  The query
"murder" detects no act but the tag filter `["criminal"]`; with a
searcher that returns nothing, `answer` makes exactly ONE retrieval call
(with the tag filter) and never retries, because the code only tests
`effective_act_filter` in the fallback condition. -/
theorem answer_tag_filter_no_retry :
    answerCalls (fun _ => []) (fun q => (Except.ok q : Except Unit String))
      (fun _ _ => "A") 5 "murder" none
      = [⟨"murder", 5, none, some ["criminal"]⟩] := by
  decide

/-- C3 amended: the retrieval-call trace of `answer` is fully
characterised: the first call uses the rewritten query with the
effective act filter and the detected tag filter; a second, unfiltered
call happens exactly when the first returned empty AND the effective act
filter is truthy (a tag-only filter never triggers it); there is never a
third call, so the retry happens at most once and is the only automatic
retry. -/
theorem answer_retry_only_on_act_filter {E : Type}
    (search : SearchCall → List SearchResult) (rwLLM : String → Except E String)
    (gen : String → String → String) (k : Nat) (q : String) (af : Option String)
    (rw : String) (hrw : rewrite_query rwLLM q = Except.ok rw) :
    answerCalls search rwLLM gen k q af =
      if (search ⟨rw, k, pyOr af (detect_intent q).act_filter,
            (detect_intent q).tag_filter⟩).isEmpty
          && optStrTruthy (pyOr af (detect_intent q).act_filter) then
        [⟨rw, k, pyOr af (detect_intent q).act_filter, (detect_intent q).tag_filter⟩,
         ⟨rw, k, none, none⟩]
      else
        [⟨rw, k, pyOr af (detect_intent q).act_filter,
          (detect_intent q).tag_filter⟩] := by
  by_cases hcond : (search ⟨rw, k, pyOr af (detect_intent q).act_filter,
        (detect_intent q).tag_filter⟩).isEmpty
      && optStrTruthy (pyOr af (detect_intent q).act_filter)
  · simp [answerCalls, answer, hrw, hcond]
  · simp [answerCalls, answer, hrw, hcond]

/-- Witness for the amended C3: a caller-supplied act filter that
matches nothing makes the empty filtered search retry exactly once,
unfiltered. -/
theorem answer_retry_only_on_act_filter_witness :
    answerCalls (fun _ => []) (fun q => (Except.ok q : Except Unit String))
      (fun _ _ => "A") 5 "murder" (some "No Such Act")
      = if ((fun (_ : SearchCall) => ([] : List SearchResult))
            ⟨"murder", 5, pyOr (some "No Such Act") (detect_intent "murder").act_filter,
              (detect_intent "murder").tag_filter⟩).isEmpty
          && optStrTruthy (pyOr (some "No Such Act") (detect_intent "murder").act_filter) then
        [⟨"murder", 5, pyOr (some "No Such Act") (detect_intent "murder").act_filter,
          (detect_intent "murder").tag_filter⟩,
         ⟨"murder", 5, none, none⟩]
      else
        [⟨"murder", 5, pyOr (some "No Such Act") (detect_intent "murder").act_filter,
          (detect_intent "murder").tag_filter⟩] :=
  answer_retry_only_on_act_filter (fun _ => []) (fun q => (Except.ok q : Except Unit String))
    (fun _ _ => "A") 5 "murder" (some "No Such Act") "murder" rfl

/-- C4 counterexample: the claim says a failing rewrite call falls back
to the original query and the pipeline does not fail.  With a rewrite
collaborator that errors, `answer` returns that error: the failure
propagates (there is no handler around `self._rewrite_query` in
`vakilbot.py`) and no retrieval or generation happens. -/
theorem answer_rewrite_failure_fails :
    answer (fun _ => ([] : List SearchResult))
      (fun _ => (Except.error "llm down" : Except String String))
      (fun _ _ => "A") 5 "q" none = Except.error "llm down" := rfl

/-- C4 amended: when the text-generation collaborator used for query
rewriting fails, `answer` propagates exactly that failure — there is no
fallback to the original query and the rest of the pipeline never runs. -/
theorem answer_rewrite_failure_propagates {E : Type}
    (search : SearchCall → List SearchResult) (gen : String → String → String)
    (k : Nat) (q : String) (af : Option String)
    (rwLLM : String → Except E String) (e : E)
    (hfail : rwLLM q = Except.error e) :
    answer search rwLLM gen k q af = Except.error e := by
  simp [answer, rewrite_query, hfail, Except.map]

/-- Witness for the amended C4 at a concrete failing collaborator. -/
theorem answer_rewrite_failure_propagates_witness :
    answer (fun _ => ([] : List SearchResult))
      (fun _ => (Except.error 42 : Except Nat String))
      (fun _ _ => "A") 5 "hello" none = Except.error 42 :=
  answer_rewrite_failure_propagates (fun _ => []) (fun _ _ => "A") 5 "hello"
    none (fun _ => Except.error 42) 42 rfl

/-- C10: when retrieval (including the unfiltered retry) yields nothing,
`answer` still succeeds: `_build_context` returns the fixed placeholder
string and generation proceeds with that placeholder as the legal
context. -/
theorem answer_empty_results_uses_placeholder {E : Type}
    (search : SearchCall → List SearchResult) (rwLLM : String → Except E String)
    (gen : String → String → String) (k : Nat) (q : String) (af : Option String)
    (rw : String) (hrw : rewrite_query rwLLM q = Except.ok rw)
    (hempty : ∀ c, search c = []) :
    build_context [] = "No relevant legal provisions found."
    ∧ ∃ calls, answer search rwLLM gen k q af
        = Except.ok (generate_response gen []
            (user_prompt_of q "No relevant legal provisions found."), calls) := by
  refine ⟨rfl, ?_⟩
  have hbc : build_context [] = "No relevant legal provisions found." := rfl
  simp only [answer, hrw, hempty, hbc, List.isEmpty_nil, Bool.true_and]
  by_cases ht : optStrTruthy (pyOr af (detect_intent q).act_filter) = true
  · rw [if_pos ht]
    exact ⟨_, rfl⟩
  · rw [if_neg ht]
    exact ⟨_, rfl⟩

/-- Witness for C10: a searcher with an empty index still produces a
successful answer built on the placeholder context. -/
theorem answer_empty_results_uses_placeholder_witness :
    build_context [] = "No relevant legal provisions found."
    ∧ ∃ calls, answer (fun _ => []) (fun q => (Except.ok q : Except Unit String))
        (fun _ _ => "A") 5 "q" none
        = Except.ok (generate_response (fun _ _ => "A") []
            (user_prompt_of "q" "No relevant legal provisions found."), calls) :=
  answer_empty_results_uses_placeholder (fun _ => [])
    (fun q => (Except.ok q : Except Unit String)) (fun _ _ => "A") 5 "q" none "q"
    rfl (fun _ => rfl)

end VakilRag
